import Mathlib

/-!
Value and Score types of `value.h`.

A shallow embedding of `src/value.h` (Stockfish): the `Value` and `ValueType`
enumerations, the `Score` pair of 32-bit lanes, their operators, the
mate-distance helpers, the piece-value tables and their lookups.  The
conversions that `value.h` only declares (`value_to_tt`, `value_from_tt`,
`value_to_centipawns`) are modelled from the specification.

Modelling conventions.

* The C++ types `int` and `int32_t` are 32-bit two's-complement integers.  They
  are embedded as `CInt`: a mathematical integer together with the proof that it
  lies in `[-2^31, 2^31)`.  Every arithmetic operation computes on the
  mathematical integers and reduces the result with `wrap32`, i.e. modulo
  `2^32` into the signed range, so signed overflow wraps around.
* `enum Value` is stored in an `int`; `Value(i)` and `int(v)` are the two
  directions of that identification (`Value.mk` and `Value.toInt`).
* Operations without a defined result (division by zero, an array subscript
  outside the array) return `none`.
* Inside an inline function only the operators declared above it in the header
  take part in overload resolution.  Each embedded body records the operator
  the C++ expression resolves to.
-/

namespace Stockfish

/-! ## 32-bit machine integers -/

/-- Reduction of an integer modulo `2^32` into the signed range `[-2^31, 2^31)`. -/
def wrap32 (x : Int) : Int := (x + 2147483648) % 4294967296 - 2147483648

/-- The C++ type `int` (and `int32_t`): an integer in `[-2^31, 2^31)`. -/
structure CInt where
  val : Int
  lo : -2147483648 ≤ val
  hi : val < 2147483648
deriving DecidableEq

namespace CInt

/-- Truncating conversion of a mathematical integer to a 32-bit `int`. -/
def ofInt (x : Int) : CInt :=
  ⟨wrap32 x, by unfold wrap32; omega, by unfold wrap32; omega⟩

/-- Built-in `a + b` on `int`. -/
def add (a b : CInt) : CInt := ofInt (a.val + b.val)

/-- Built-in `a - b` on `int`. -/
def sub (a b : CInt) : CInt := ofInt (a.val - b.val)

/-- Built-in `a * b` on `int`. -/
def mul (a b : CInt) : CInt := ofInt (a.val * b.val)

/-- Built-in unary `-a` on `int`. -/
def neg (a : CInt) : CInt := ofInt (-a.val)

/-- Built-in `a & b` on `int`. -/
def land (a b : CInt) : CInt := ofInt (Int.land a.val b.val)

end CInt

/-- The conversion `int32_t(x)` of an `int`. -/
def int32_t (x : CInt) : CInt := CInt.ofInt x.val

/-! ## Enumerations -/

/-- The enumeration `ValueType`. -/
inductive ValueType where
  | VALUE_TYPE_NONE
  | VALUE_TYPE_UPPER
  | VALUE_TYPE_LOWER
  | VALUE_TYPE_EXACT
  | VALUE_TYPE_EVAL
  | VALUE_TYPE_EV_UP
  | VALUE_TYPE_EV_LO
deriving DecidableEq, Repr

namespace ValueType

/-- The conversion `int(vt)`: the enumerator's declared value. -/
def toInt : ValueType → CInt
  | VALUE_TYPE_NONE => CInt.ofInt 0
  | VALUE_TYPE_UPPER => CInt.ofInt 1
  | VALUE_TYPE_LOWER => CInt.ofInt 2
  | VALUE_TYPE_EXACT => CInt.ofInt 3
  | VALUE_TYPE_EVAL => CInt.ofInt 4
  | VALUE_TYPE_EV_UP => CInt.ofInt 5
  | VALUE_TYPE_EV_LO => CInt.ofInt 6

end ValueType

/-- The enumeration `Value`, identified with the `int` that stores it:
`Value.mk i` is `Value(i)` and `v.toInt` is `int(v)`. -/
structure Value where
  toInt : CInt
deriving DecidableEq

def VALUE_DRAW : Value := ⟨CInt.ofInt 0⟩
def VALUE_KNOWN_WIN : Value := ⟨CInt.ofInt 15000⟩
def VALUE_MATE : Value := ⟨CInt.ofInt 30000⟩
def VALUE_INFINITE : Value := ⟨CInt.ofInt 30001⟩
def VALUE_NONE : Value := ⟨CInt.ofInt 30002⟩

/-! ## Score -/

/-- The `v32` view of `union ScoreValue`: two 32-bit lanes.  The `v64` member
aliases the same storage and is only ever copied as a whole. -/
structure ScoreValue where
  mgv : CInt
  egv : CInt
deriving DecidableEq

/-- The struct `Score`, holding one `ScoreValue`. -/
structure Score where
  v : ScoreValue
deriving DecidableEq

namespace Score

/-- The constructor `Score(int mg, int eg)`. -/
def ofInts (mg eg : CInt) : Score := ⟨⟨int32_t mg, int32_t eg⟩⟩

/-- The accessor `Score::mg()`. -/
def mg (s : Score) : Value := Value.mk s.v.mgv

/-- The accessor `Score::eg()`. -/
def eg (s : Score) : Value := Value.mk s.v.egv

/-- The member `Score::operator+=`, returning the updated object. -/
def operator_add_assign (self s : Score) : Score :=
  ⟨⟨CInt.add self.v.mgv s.v.mgv, CInt.add self.v.egv s.v.egv⟩⟩

/-- The member `Score::operator-=`, returning the updated object. -/
def operator_sub_assign (self s : Score) : Score :=
  ⟨⟨CInt.sub self.v.mgv s.v.mgv, CInt.sub self.v.egv s.v.egv⟩⟩

end Score

/-- The free function `operator*(int i, Score s)`.  The operators on `Value`
are declared further down the header, so `i * s.mg()` is the built-in product of
`i` with `s.mg()` promoted to `int`. -/
def operator_mul_int_Score (i : CInt) (s : Score) : Score :=
  Score.ofInts (CInt.mul i s.mg.toInt) (CInt.mul i s.eg.toInt)

/-- The free function `operator*(Score s, int i)`, whose body is `return s * i;`.
For the operands `(Score, int)` the only viable `operator*` is this function
itself, so the body is a call of the function being defined.  The first
argument bounds the depth of nested calls; `none` means the bound was reached
before any call returned. -/
def operator_mul_Score_int : Nat → Score → CInt → Option Score
  | 0, _, _ => none
  | fuel + 1, s, i => operator_mul_Score_int fuel s i

/-- The free function `operator-(Score s)`; `-s.mg()` is the built-in negation
of `s.mg()` promoted to `int`. -/
def operator_neg_Score (s : Score) : Score :=
  Score.ofInts (CInt.neg s.mg.toInt) (CInt.neg s.eg.toInt)

/-! ## Value operators -/

/-- The function `operator+ (Value v, int i)`. -/
def operator_add_Value_int (v : Value) (i : CInt) : Value := Value.mk (CInt.add v.toInt i)

/-- The function `operator+ (Value v1, Value v2)`. -/
def operator_add_Value_Value (v1 v2 : Value) : Value := Value.mk (CInt.add v1.toInt v2.toInt)

/-- The function `operator- (Value v, int i)`. -/
def operator_sub_Value_int (v : Value) (i : CInt) : Value := Value.mk (CInt.sub v.toInt i)

/-- The function `operator- (Value v)`. -/
def operator_neg_Value (v : Value) : Value := Value.mk (CInt.neg v.toInt)

/-- The function `operator- (Value v1, Value v2)`. -/
def operator_sub_Value_Value (v1 v2 : Value) : Value := Value.mk (CInt.sub v1.toInt v2.toInt)

/-- The function `operator* (Value v, int i)`. -/
def operator_mul_Value_int (v : Value) (i : CInt) : Value := Value.mk (CInt.mul v.toInt i)

/-- The function `operator* (int i, Value v)`. -/
def operator_mul_int_Value (i : CInt) (v : Value) : Value := Value.mk (CInt.mul v.toInt i)

/-! ## Mate helpers and bound predicates -/

/-- The function `value_mate_in`: `Value(VALUE_MATE - Value(ply))`, where the
subtraction is `operator- (Value, Value)`. -/
def value_mate_in (ply : CInt) : Value :=
  Value.mk (operator_sub_Value_Value VALUE_MATE (Value.mk ply)).toInt

/-- The function `value_mated_in`: `Value(-VALUE_MATE + Value(ply))`, where the
negation is `operator- (Value)` and the sum is `operator+ (Value, Value)`. -/
def value_mated_in (ply : CInt) : Value :=
  Value.mk (operator_add_Value_Value (operator_neg_Value VALUE_MATE) (Value.mk ply)).toInt

/-- The function `is_upper_bound`. -/
def is_upper_bound (vt : ValueType) : Bool :=
  (CInt.land vt.toInt ValueType.VALUE_TYPE_UPPER.toInt).val != 0

/-- The function `is_lower_bound`. -/
def is_lower_bound (vt : ValueType) : Bool :=
  (CInt.land vt.toInt ValueType.VALUE_TYPE_LOWER.toInt).val != 0

/-! ## Division -/

/-- Built-in `a / b` on `int`: the quotient truncated toward zero.  Division by
zero and the quotient `-2^31 / -1`, which is not a 32-bit integer, have no
defined result (`none`). -/
def CInt.div (a b : CInt) : Option CInt :=
  if b.val = 0 then none
  else if a.val = -2147483648 ∧ b.val = -1 then none
  else some (CInt.ofInt (Int.tdiv a.val b.val))

/-- The function `operator/ (Value v, int i)`. -/
def operator_div_Value_int (v : Value) (i : CInt) : Option Value :=
  (CInt.div v.toInt i).map Value.mk

/-- The function `operator/= (Value &v, int i)`, returning the value `v` holds
afterwards. -/
def operator_div_assign_Value_int (v : Value) (i : CInt) : Option Value :=
  (CInt.div v.toInt i).map Value.mk

/-! ## Piece values -/

def PawnValueMidgame : Value := Value.mk (CInt.ofInt 0x0C6)
def PawnValueEndgame : Value := Value.mk (CInt.ofInt 0x102)
def KnightValueMidgame : Value := Value.mk (CInt.ofInt 0x331)
def KnightValueEndgame : Value := Value.mk (CInt.ofInt 0x34E)
def BishopValueMidgame : Value := Value.mk (CInt.ofInt 0x344)
def BishopValueEndgame : Value := Value.mk (CInt.ofInt 0x359)
def RookValueMidgame : Value := Value.mk (CInt.ofInt 0x4F6)
def RookValueEndgame : Value := Value.mk (CInt.ofInt 0x4FE)
def QueenValueMidgame : Value := Value.mk (CInt.ofInt 0x9D9)
def QueenValueEndgame : Value := Value.mk (CInt.ofInt 0x9FE)

/-- The array `PieceValueMidgame[17]`. -/
def PieceValueMidgame : List Value :=
  [Value.mk (CInt.ofInt 0),
   PawnValueMidgame, KnightValueMidgame, BishopValueMidgame,
   RookValueMidgame, QueenValueMidgame,
   Value.mk (CInt.ofInt 0), Value.mk (CInt.ofInt 0), Value.mk (CInt.ofInt 0),
   PawnValueMidgame, KnightValueMidgame, BishopValueMidgame,
   RookValueMidgame, QueenValueMidgame,
   Value.mk (CInt.ofInt 0), Value.mk (CInt.ofInt 0), Value.mk (CInt.ofInt 0)]

/-- The array `PieceValueEndgame[17]`. -/
def PieceValueEndgame : List Value :=
  [Value.mk (CInt.ofInt 0),
   PawnValueEndgame, KnightValueEndgame, BishopValueEndgame,
   RookValueEndgame, QueenValueEndgame,
   Value.mk (CInt.ofInt 0), Value.mk (CInt.ofInt 0), Value.mk (CInt.ofInt 0),
   PawnValueEndgame, KnightValueEndgame, BishopValueEndgame,
   RookValueEndgame, QueenValueEndgame,
   Value.mk (CInt.ofInt 0), Value.mk (CInt.ofInt 0), Value.mk (CInt.ofInt 0)]

/-- The array subscript `table[i]` with an `int` index: the element at `i`, and
`none` when `i` is negative or not below the length of the array. -/
def subscript (table : List Value) (i : CInt) : Option Value :=
  if 0 ≤ i.val then table[i.val.toNat]? else none

/-- Modelled from the spec: the enumeration `PieceType` is declared in `piece.h`,
which is not among the sources.  The spec uses a piece identity solely as a
lookup key into the piece-value tables, so a `PieceType` is identified with
the `int` it converts to. -/
structure PieceType where
  toInt : CInt
deriving DecidableEq

/-- Modelled from the spec: the enumeration `Piece` is declared in `piece.h`,
which is not among the sources.  A `Piece` (colour and piece type) is
identified with the `int` it converts to, the key into the 17-slot tables. -/
structure Piece where
  toInt : CInt
deriving DecidableEq

/-- The function `piece_value_midgame(PieceType pt)`. -/
def piece_value_midgame_PieceType (pt : PieceType) : Option Value :=
  subscript PieceValueMidgame pt.toInt

/-- The function `piece_value_endgame(PieceType pt)`. -/
def piece_value_endgame_PieceType (pt : PieceType) : Option Value :=
  subscript PieceValueEndgame pt.toInt

/-- The function `piece_value_midgame(Piece p)`. -/
def piece_value_midgame_Piece (p : Piece) : Option Value :=
  subscript PieceValueMidgame p.toInt

/-- The function `piece_value_endgame(Piece p)`. -/
def piece_value_endgame_Piece (p : Piece) : Option Value :=
  subscript PieceValueEndgame p.toInt

/-! ## Conversions declared in `value.h` and defined elsewhere -/

/-- Modelled from the spec: `value_to_tt` is only declared in `value.h`; its body
is not among the sources.  Spec 4.2: if `v` is a winning mate score
(`v ≥ Mate - MaxPly`) subtract `ply` before storing; if `v` is a losing mate
score (`v ≤ -(Mate - MaxPly)`) add `ply`; otherwise store `v` unchanged.
`MaxPly` is the engine-wide maximum search depth, an external parameter. -/
def value_to_tt (MaxPly : CInt) (v : Value) (ply : CInt) : Value :=
  if (operator_sub_Value_int VALUE_MATE MaxPly).toInt.val ≤ v.toInt.val then
    operator_sub_Value_int v ply
  else if v.toInt.val
      ≤ (operator_neg_Value (operator_sub_Value_int VALUE_MATE MaxPly)).toInt.val then
    operator_add_Value_int v ply
  else v

/-- Modelled from the spec: `value_from_tt` is only declared in `value.h`; its
body is not among the sources.  Spec 4.2: the inverse of `value_to_tt`: add
`ply` back to winning mate scores, subtract `ply` from losing mate scores;
other values pass through unchanged. -/
def value_from_tt (MaxPly : CInt) (v : Value) (ply : CInt) : Value :=
  if (operator_sub_Value_int VALUE_MATE MaxPly).toInt.val ≤ v.toInt.val then
    operator_add_Value_int v ply
  else if v.toInt.val
      ≤ (operator_neg_Value (operator_sub_Value_int VALUE_MATE MaxPly)).toInt.val then
    operator_sub_Value_int v ply
  else v

/-- The integer nearest to the fraction `a / b` for `b > 0`, computed as the
floor of `a / b + 1 / 2`. -/
def round_div (a b : Int) : Int := (2 * a + b) / (2 * b)

/-- Modelled from the spec: `value_to_centipawns` is only declared in `value.h`;
its body is not among the sources.  Spec 4.3: scale the internal unit to 100
units per pawn, rounding to the nearest integer; the internal value of a pawn
is `PawnValueMidgame`. -/
def value_to_centipawns (v : Value) : CInt :=
  CInt.ofInt (round_div (v.toInt.val * 100) PawnValueMidgame.toInt.val)

/-- The integer `x` is representable as a 32-bit `int`. -/
def fits32 (x : Int) : Prop := -2147483648 ≤ x ∧ x < 2147483648

/-! ## Facts about 32-bit arithmetic -/

theorem wrap32_of_range {x : Int} (h1 : -2147483648 ≤ x) (h2 : x < 2147483648) :
    wrap32 x = x := by
  unfold wrap32; omega

theorem wrap32_idem (x : Int) : wrap32 (wrap32 x) = wrap32 x := by
  unfold wrap32; omega

theorem wrap32_modEq (x : Int) : Int.ModEq 4294967296 (wrap32 x) x := by
  unfold Int.ModEq wrap32; omega

theorem wrap32_congr {x y : Int} (h : Int.ModEq 4294967296 x y) : wrap32 x = wrap32 y := by
  unfold Int.ModEq at h; unfold wrap32; omega

theorem wrap32_neg_neg {x : Int} (h1 : -2147483648 ≤ x) (h2 : x < 2147483648) :
    wrap32 (-wrap32 (-x)) = x := by
  unfold wrap32; omega

theorem wrap32_add_neg (x : Int) : wrap32 (x + wrap32 (-x)) = 0 := by
  unfold wrap32; omega

theorem wrap32_mul_assoc (i j x : Int) :
    wrap32 (wrap32 (i * j) * x) = wrap32 (i * wrap32 (j * x)) := by
  apply wrap32_congr
  have h1 : Int.ModEq 4294967296 (wrap32 (i * j) * x) (i * j * x) :=
    (wrap32_modEq (i * j)).mul_right x
  have h2 : Int.ModEq 4294967296 (i * wrap32 (j * x)) (i * (j * x)) :=
    (wrap32_modEq (j * x)).mul_left i
  rw [mul_assoc] at h1
  exact h1.trans h2.symm

namespace CInt

theorem eq_of_val_eq {a b : CInt} (h : a.val = b.val) : a = b := by
  cases a; cases b; cases h; rfl

theorem ofInt_val (x : Int) : (ofInt x).val = wrap32 x := rfl

theorem ofInt_self (a : CInt) : ofInt a.val = a :=
  eq_of_val_eq (wrap32_of_range a.lo a.hi)

end CInt

theorem int32_t_id (x : CInt) : int32_t x = x := CInt.ofInt_self x

/-- On every pair of operands `operator*(Score, int)` reaches any bound on the
call depth without returning. -/
theorem operator_mul_Score_int_never_returns (fuel : Nat) (s : Score) (i : CInt) :
    operator_mul_Score_int fuel s i = none := by
  induction fuel with
  | zero => rfl
  | succ n ih => simpa [operator_mul_Score_int] using ih

/-! ## Score: construction and lane access -/

/-- C1: for every pair of 32-bit integers `mg` and `eg`, the lanes read back
from `Score(mg, eg)` are `mg` and `eg`. -/
theorem Score_ofInts_mg_eg (mg eg : CInt) :
    (Score.ofInts mg eg).mg.toInt = mg ∧ (Score.ofInts mg eg).eg.toInt = eg := by
  simp [Score.ofInts, Score.mg, Score.eg, int32_t_id]

/-- C2: at `s = Score(1, 2)` and `i = 3` the call `operator*(Score, int)` returns
nothing within any bound on the call depth, while `operator*(int, Score)` on
the same operands returns `Score(3, 6)`. -/
theorem operator_mul_Score_int_diverges :
    (∀ fuel : Nat,
      operator_mul_Score_int fuel (Score.ofInts (CInt.ofInt 1) (CInt.ofInt 2)) (CInt.ofInt 3)
        = none) ∧
    operator_mul_int_Score (CInt.ofInt 3) (Score.ofInts (CInt.ofInt 1) (CInt.ofInt 2))
      = Score.ofInts (CInt.ofInt 3) (CInt.ofInt 6) :=
  ⟨fun fuel => operator_mul_Score_int_never_returns fuel _ _, by decide⟩

/-- C3: `i * s` multiplies each lane by `i` and `-s` negates each lane, in 32-bit
arithmetic: the lanes of the result are what `operator*(int, Value)` and
`operator-(Value)` give on the lanes of `s`, namely the products and
negations reduced modulo `2^32`. -/
theorem operator_mul_neg_Score_lanes (i : CInt) (s : Score) :
    ((operator_mul_int_Score i s).mg = operator_mul_int_Value i s.mg ∧
      (operator_mul_int_Score i s).eg = operator_mul_int_Value i s.eg) ∧
    ((operator_mul_int_Score i s).mg.toInt.val = wrap32 (i.val * s.mg.toInt.val) ∧
      (operator_mul_int_Score i s).eg.toInt.val = wrap32 (i.val * s.eg.toInt.val)) ∧
    ((operator_neg_Score s).mg = operator_neg_Value s.mg ∧
      (operator_neg_Score s).eg = operator_neg_Value s.eg) ∧
    ((operator_neg_Score s).mg.toInt.val = wrap32 (-s.mg.toInt.val) ∧
      (operator_neg_Score s).eg.toInt.val = wrap32 (-s.eg.toInt.val)) := by
  simp [operator_mul_int_Score, operator_neg_Score, operator_mul_int_Value,
    operator_neg_Value, Score.ofInts, Score.mg, Score.eg, int32_t_id, CInt.mul, CInt.neg,
    CInt.ofInt_val, mul_comm]

/-- C4: negating a Score twice gives back its midgame and endgame lanes. -/
theorem operator_neg_Score_involutive (s : Score) :
    (operator_neg_Score (operator_neg_Score s)).mg = s.mg ∧
    (operator_neg_Score (operator_neg_Score s)).eg = s.eg := by
  constructor <;>
  · simp only [operator_neg_Score, Score.ofInts, Score.mg, Score.eg, int32_t_id, CInt.neg]
    congr 1
    apply CInt.eq_of_val_eq
    exact wrap32_neg_neg (CInt.lo _) (CInt.hi _)

/-- C5: after `s += -s` both lanes of `s` are `0`, so the result is the Score
`Score(0, 0)`. -/
theorem operator_add_assign_neg_Score (s : Score) :
    (Score.operator_add_assign s (operator_neg_Score s)).mg.toInt.val = 0 ∧
    (Score.operator_add_assign s (operator_neg_Score s)).eg.toInt.val = 0 ∧
    Score.operator_add_assign s (operator_neg_Score s)
      = Score.ofInts (CInt.ofInt 0) (CInt.ofInt 0) := by
  have hmg : (Score.operator_add_assign s (operator_neg_Score s)).mg.toInt.val = 0 := by
    simp only [Score.operator_add_assign, operator_neg_Score, Score.ofInts, Score.mg, Score.eg,
      int32_t_id, CInt.neg, CInt.add, CInt.ofInt_val]
    exact wrap32_add_neg _
  have heg : (Score.operator_add_assign s (operator_neg_Score s)).eg.toInt.val = 0 := by
    simp only [Score.operator_add_assign, operator_neg_Score, Score.ofInts, Score.mg, Score.eg,
      int32_t_id, CInt.neg, CInt.add, CInt.ofInt_val]
    exact wrap32_add_neg _
  refine ⟨hmg, heg, ?_⟩
  have h1 : (Score.operator_add_assign s (operator_neg_Score s)).v.mgv = CInt.ofInt 0 :=
    CInt.eq_of_val_eq hmg
  have h2 : (Score.operator_add_assign s (operator_neg_Score s)).v.egv = CInt.ofInt 0 :=
    CInt.eq_of_val_eq heg
  generalize Score.operator_add_assign s (operator_neg_Score s) = r at h1 h2
  obtain ⟨⟨a, b⟩⟩ := r
  simp only at h1 h2
  subst h1 h2
  simp [Score.ofInts, int32_t_id]

/-- C6: `(i * j) * s` and `i * (j * s)` have the same midgame and endgame lanes,
where `i * j` is the 32-bit product of the two integers. -/
theorem operator_mul_int_Score_assoc (i j : CInt) (s : Score) :
    (operator_mul_int_Score (CInt.mul i j) s).mg
      = (operator_mul_int_Score i (operator_mul_int_Score j s)).mg ∧
    (operator_mul_int_Score (CInt.mul i j) s).eg
      = (operator_mul_int_Score i (operator_mul_int_Score j s)).eg := by
  constructor <;>
  · simp only [operator_mul_int_Score, Score.ofInts, Score.mg, Score.eg, int32_t_id, CInt.mul,
      CInt.ofInt_val]
    congr 1
    apply CInt.eq_of_val_eq
    exact wrap32_mul_assoc _ _ _

/-! ## Mate helpers -/

/-- C7: for every 32-bit `ply`, `value_mate_in(ply)` is `VALUE_MATE - ply` and
`value_mated_in(ply)` is `-VALUE_MATE + ply`, computed by the `Value`/`int`
operators, i.e. `30000 - ply` and `-30000 + ply` in 32-bit arithmetic.  No
clamping takes place: whenever `ply ≥ -2147453647` (in particular for every
`ply ≥ 0`) the results are exactly the integers `30000 - ply` and
`-30000 + ply`. -/
theorem value_mate_in_mated_in_eq (ply : CInt) :
    (value_mate_in ply = operator_sub_Value_int VALUE_MATE ply ∧
      value_mated_in ply = operator_add_Value_int (operator_neg_Value VALUE_MATE) ply) ∧
    ((value_mate_in ply).toInt.val = wrap32 (30000 - ply.val) ∧
      (value_mated_in ply).toInt.val = wrap32 (-30000 + ply.val)) ∧
    (-2147453647 ≤ ply.val →
      (value_mate_in ply).toInt.val = 30000 - ply.val ∧
      (value_mated_in ply).toInt.val = -30000 + ply.val) := by
  have h1 : (value_mate_in ply).toInt.val = wrap32 (30000 - ply.val) := rfl
  have h2 : (value_mated_in ply).toInt.val = wrap32 (-30000 + ply.val) := rfl
  refine ⟨⟨rfl, rfl⟩, ⟨h1, h2⟩, fun h => ?_⟩
  have hhi := ply.hi
  rw [h1, h2]
  constructor <;> apply wrap32_of_range <;> omega

/-- An instance of C7 at `ply = 3`: mate in 3 is `29997`, mated in 3 is `-29997`. -/
theorem value_mate_in_mated_in_eq_witness :
    (value_mate_in (CInt.ofInt 3)).toInt.val = 30000 - 3 ∧
    (value_mated_in (CInt.ofInt 3)).toInt.val = -30000 + 3 :=
  (value_mate_in_mated_in_eq (CInt.ofInt 3)).2.2 (by decide)

/-- C8: for `MaxPly ≥ 0` and `0 ≤ ply ≤ MaxPly`, mate values stay in the band of
width `MaxPly` below `VALUE_MATE` and mated values in the band of width
`MaxPly` above `-VALUE_MATE`:
`VALUE_MATE - MaxPly ≤ value_mate_in(ply) ≤ VALUE_MATE` and
`-VALUE_MATE ≤ value_mated_in(ply) ≤ -(VALUE_MATE - MaxPly)`, both for the
bounds as integers and for the bounds computed by the `Value` operators. -/
theorem value_mate_band (MaxPly ply : CInt) (hmax : 0 ≤ MaxPly.val) (h0 : 0 ≤ ply.val)
    (h1 : ply.val ≤ MaxPly.val) :
    (VALUE_MATE.toInt.val - MaxPly.val ≤ (value_mate_in ply).toInt.val ∧
      (value_mate_in ply).toInt.val ≤ VALUE_MATE.toInt.val ∧
      -VALUE_MATE.toInt.val ≤ (value_mated_in ply).toInt.val ∧
      (value_mated_in ply).toInt.val ≤ -(VALUE_MATE.toInt.val - MaxPly.val)) ∧
    ((operator_sub_Value_int VALUE_MATE MaxPly).toInt.val ≤ (value_mate_in ply).toInt.val ∧
      (operator_neg_Value VALUE_MATE).toInt.val ≤ (value_mated_in ply).toInt.val ∧
      (value_mated_in ply).toInt.val
        ≤ (operator_neg_Value (operator_sub_Value_int VALUE_MATE MaxPly)).toInt.val) := by
  have hM : VALUE_MATE.toInt.val = 30000 := by decide
  have hnM : (operator_neg_Value VALUE_MATE).toInt.val = -30000 := by decide
  have hphi := ply.hi
  have hmhi := MaxPly.hi
  have e1 : (value_mate_in ply).toInt.val = 30000 - ply.val := by
    show wrap32 (30000 - ply.val) = _
    apply wrap32_of_range <;> omega
  have e2 : (value_mated_in ply).toInt.val = -30000 + ply.val := by
    show wrap32 (-30000 + ply.val) = _
    apply wrap32_of_range <;> omega
  have e3 : (operator_sub_Value_int VALUE_MATE MaxPly).toInt.val = 30000 - MaxPly.val := by
    show wrap32 (30000 - MaxPly.val) = _
    apply wrap32_of_range <;> omega
  have e4 : (operator_neg_Value (operator_sub_Value_int VALUE_MATE MaxPly)).toInt.val
      = -(30000 - MaxPly.val) := by
    show wrap32 (-(operator_sub_Value_int VALUE_MATE MaxPly).toInt.val) = _
    rw [e3]
    apply wrap32_of_range <;> omega
  rw [hM, hnM, e1, e2, e3, e4]
  omega

/-- An instance of C8 at `MaxPly = 100`, `ply = 3`. -/
theorem value_mate_band_witness :
    (0 : Int) ≤ (CInt.ofInt 100).val ∧ (0 : Int) ≤ (CInt.ofInt 3).val ∧
    (CInt.ofInt 3).val ≤ (CInt.ofInt 100).val ∧
    VALUE_MATE.toInt.val - (CInt.ofInt 100).val ≤ (value_mate_in (CInt.ofInt 3)).toInt.val ∧
    (value_mated_in (CInt.ofInt 3)).toInt.val
      ≤ -(VALUE_MATE.toInt.val - (CInt.ofInt 100).val) :=
  have h := value_mate_band (CInt.ofInt 100) (CInt.ofInt 3) (by decide) (by decide) (by decide)
  ⟨by decide, by decide, by decide, h.1.1, h.1.2.2.2⟩

/-! ## Bound predicates -/

/-- C9: `is_upper_bound(vt)` holds exactly for the enumerators `VALUE_TYPE_UPPER`,
`VALUE_TYPE_EXACT` and `VALUE_TYPE_EV_UP`; in particular it holds for
`VALUE_TYPE_EXACT` and fails for `VALUE_TYPE_LOWER`. -/
theorem is_upper_bound_iff (vt : ValueType) :
    (is_upper_bound vt = true ↔
      (vt = ValueType.VALUE_TYPE_UPPER ∨ vt = ValueType.VALUE_TYPE_EXACT ∨
        vt = ValueType.VALUE_TYPE_EV_UP)) ∧
    is_upper_bound ValueType.VALUE_TYPE_EXACT = true ∧
    is_upper_bound ValueType.VALUE_TYPE_LOWER = false := by
  cases vt <;> decide

/-- C10: `is_lower_bound(vt)` holds exactly for the enumerators `VALUE_TYPE_LOWER`,
`VALUE_TYPE_EXACT` and `VALUE_TYPE_EV_LO`; in particular it holds for
`VALUE_TYPE_EXACT`. -/
theorem is_lower_bound_iff (vt : ValueType) :
    (is_lower_bound vt = true ↔
      (vt = ValueType.VALUE_TYPE_LOWER ∨ vt = ValueType.VALUE_TYPE_EXACT ∨
        vt = ValueType.VALUE_TYPE_EV_LO)) ∧
    is_lower_bound ValueType.VALUE_TYPE_EXACT = true := by
  cases vt <;> decide

/-! ## Auxiliary facts for the conversions and tables -/

theorem wrap32_sub_add {a p : Int} (h1 : -2147483648 ≤ a) (h2 : a < 2147483648) :
    wrap32 (wrap32 (a - p) + p) = a := by
  unfold wrap32; omega

theorem wrap32_add_sub {a p : Int} (h1 : -2147483648 ≤ a) (h2 : a < 2147483648) :
    wrap32 (wrap32 (a + p) - p) = a := by
  unfold wrap32; omega

theorem operator_add_sub_Value_int (v : Value) (p : CInt) :
    operator_add_Value_int (operator_sub_Value_int v p) p = v := by
  obtain ⟨a⟩ := v
  simp only [operator_add_Value_int, operator_sub_Value_int, CInt.add, CInt.sub, CInt.ofInt_val]
  congr 1
  exact CInt.eq_of_val_eq (wrap32_sub_add a.lo a.hi)

theorem operator_sub_add_Value_int (v : Value) (p : CInt) :
    operator_sub_Value_int (operator_add_Value_int v p) p = v := by
  obtain ⟨a⟩ := v
  simp only [operator_add_Value_int, operator_sub_Value_int, CInt.add, CInt.sub, CInt.ofInt_val]
  congr 1
  exact CInt.eq_of_val_eq (wrap32_add_sub a.lo a.hi)

/-- A 32-bit integer between `0` and `16` is one of the seventeen indices. -/
theorem CInt.eq_ofInt_fin17 (k : CInt) (h0 : 0 ≤ k.val) (h16 : k.val ≤ 16) :
    ∃ n : Fin 17, k = CInt.ofInt (n.val : Int) := by
  refine ⟨⟨k.val.toNat, by omega⟩, ?_⟩
  apply CInt.eq_of_val_eq
  have h : ((k.val.toNat : Nat) : Int) = k.val := Int.toNat_of_nonneg h0
  simp only [CInt.ofInt_val, h]
  exact (wrap32_of_range k.lo k.hi).symm

/-- Every value strictly outside the near-mate band is stored and read back
unchanged, whatever the ply. -/
theorem value_tt_roundtrip_outside_band (MaxPly : CInt) (v : Value) (p : CInt)
    (h1 : v.toInt.val < (operator_sub_Value_int VALUE_MATE MaxPly).toInt.val)
    (h2 : (operator_neg_Value (operator_sub_Value_int VALUE_MATE MaxPly)).toInt.val
      < v.toInt.val) :
    value_from_tt MaxPly (value_to_tt MaxPly v p) p = v := by
  have e : value_to_tt MaxPly v p = v := by
    unfold value_to_tt
    rw [if_neg (by omega), if_neg (by omega)]
  rw [e]
  unfold value_from_tt
  rw [if_neg (by omega), if_neg (by omega)]

/-- For every `MaxPly ≥ 0` the value `Mate - MaxPly` at the edge of the winning
band, stored at ply `1`, leaves the band and is not restored on reading. -/
theorem value_tt_roundtrip_fails_for_MaxPly (MaxPly : CInt) (h : 0 ≤ MaxPly.val) :
    value_from_tt MaxPly (value_to_tt MaxPly (operator_sub_Value_int VALUE_MATE MaxPly)
      (CInt.ofInt 1)) (CInt.ofInt 1) ≠ operator_sub_Value_int VALUE_MATE MaxPly := by
  have hhi := MaxPly.hi
  have hT : (operator_sub_Value_int VALUE_MATE MaxPly).toInt.val = 30000 - MaxPly.val := by
    show wrap32 (30000 - MaxPly.val) = _
    apply wrap32_of_range <;> omega
  intro hc
  unfold value_from_tt value_to_tt at hc
  generalize operator_sub_Value_int VALUE_MATE MaxPly = T at hT hc
  have hlo := T.toInt.lo
  have h1 : wrap32 1 = 1 := by decide
  have hs : (operator_sub_Value_int T (CInt.ofInt 1)).toInt.val = T.toInt.val - 1 := by
    show wrap32 (T.toInt.val - wrap32 1) = _
    rw [h1]
    apply wrap32_of_range <;> omega
  have hn : (operator_neg_Value T).toInt.val = -T.toInt.val := by
    show wrap32 (-T.toInt.val) = _
    apply wrap32_of_range <;> omega
  have hss : (operator_sub_Value_int (operator_sub_Value_int T (CInt.ofInt 1))
      (CInt.ofInt 1)).toInt.val = T.toInt.val - 2 := by
    show wrap32 ((operator_sub_Value_int T (CInt.ofInt 1)).toInt.val - wrap32 1) = _
    rw [hs, h1]
    have e : T.toInt.val - 1 - 1 = T.toInt.val - 2 := by omega
    rw [e]
    apply wrap32_of_range <;> omega
  rw [if_pos (le_refl _), if_neg (by omega)] at hc
  have hv := congrArg (fun x : Value => x.toInt.val) hc
  simp only at hv
  split at hv
  · omega
  · omega

/-- The modelled `value_to_centipawns(v)` is the integer nearest to
`100 * v / 198`: it differs from that fraction by less than one half. -/
theorem value_to_centipawns_nearest (v : Value) :
    |198 * (value_to_centipawns v).val - 100 * v.toInt.val| < 99 := by
  have hlo := v.toInt.lo
  have hhi := v.toInt.hi
  have hP : PawnValueMidgame.toInt.val = 198 := by decide
  have e : (value_to_centipawns v).val = (2 * (v.toInt.val * 100) + 198) / (2 * 198) := by
    show wrap32 (round_div (v.toInt.val * 100) PawnValueMidgame.toInt.val) = _
    rw [hP]
    unfold round_div
    apply wrap32_of_range <;> omega
  rw [e, abs_lt]
  constructor <;> omega

/-! ## Cache re-basing -/

/-- C11, the claim as stated fails: with `MaxPly = 100`, the value `29900` at the
edge of the winning band is stored at ply `5` as `29895`, which is read back
unchanged, not as `29900`. -/
theorem value_tt_roundtrip_fails_at_band_edge :
    value_from_tt (CInt.ofInt 100)
        (value_to_tt (CInt.ofInt 100) (Value.mk (CInt.ofInt 29900)) (CInt.ofInt 5))
        (CInt.ofInt 5)
      ≠ Value.mk (CInt.ofInt 29900) := by
  decide

/-- C11, amended: whenever the stored value `value_to_tt(v, p)` is classified like
`v` (it is `≥ Mate - MaxPly` exactly when `v` is, and `≤ -(Mate - MaxPly)`
exactly when `v` is), reading it back at the same ply gives `v`:
`value_from_tt(value_to_tt(v, p), p) == v`. -/
theorem value_tt_roundtrip_same_class (MaxPly : CInt) (v : Value) (p : CInt)
    (hwin : (operator_sub_Value_int VALUE_MATE MaxPly).toInt.val ≤ v.toInt.val ↔
      (operator_sub_Value_int VALUE_MATE MaxPly).toInt.val
        ≤ (value_to_tt MaxPly v p).toInt.val)
    (hloss : v.toInt.val
        ≤ (operator_neg_Value (operator_sub_Value_int VALUE_MATE MaxPly)).toInt.val ↔
      (value_to_tt MaxPly v p).toInt.val
        ≤ (operator_neg_Value (operator_sub_Value_int VALUE_MATE MaxPly)).toInt.val) :
    value_from_tt MaxPly (value_to_tt MaxPly v p) p = v := by
  generalize hs : value_to_tt MaxPly v p = s at hwin hloss ⊢
  unfold value_to_tt at hs
  unfold value_from_tt
  by_cases h1 : (operator_sub_Value_int VALUE_MATE MaxPly).toInt.val ≤ v.toInt.val
  · rw [if_pos h1] at hs
    rw [if_pos (hwin.mp h1), ← hs]
    exact operator_add_sub_Value_int v p
  · rw [if_neg h1] at hs
    rw [if_neg (fun h => h1 (hwin.mpr h))]
    by_cases h2 : v.toInt.val
        ≤ (operator_neg_Value (operator_sub_Value_int VALUE_MATE MaxPly)).toInt.val
    · rw [if_pos h2] at hs
      rw [if_pos (hloss.mp h2), ← hs]
      exact operator_sub_add_Value_int v p
    · rw [if_neg h2] at hs
      rw [if_neg (fun h => h2 (hloss.mpr h))]
      exact hs.symm

/-- An instance of C11 (amended): mate in 3 stored and read at ply 5 with
`MaxPly = 100`. -/
theorem value_tt_roundtrip_same_class_witness :
    value_from_tt (CInt.ofInt 100)
        (value_to_tt (CInt.ofInt 100) (value_mate_in (CInt.ofInt 3)) (CInt.ofInt 5))
        (CInt.ofInt 5)
      = value_mate_in (CInt.ofInt 3) :=
  value_tt_roundtrip_same_class (CInt.ofInt 100) (value_mate_in (CInt.ofInt 3)) (CInt.ofInt 5)
    (by decide) (by decide)

/-! ## Piece-value tables -/

/-- C12: for every piece type index `t` in `1..5` the midgame table holds one
value at the two colour slots `t` and `t + 8`, and so does the endgame table;
for the pawn the midgame value is `198` at index `1` and at index `9`, through
either overload of `piece_value_midgame`. -/
theorem piece_value_colour_independent (t : CInt) (h1 : 1 ≤ t.val) (h5 : t.val ≤ 5) :
    (∃ x : Value, piece_value_midgame_Piece ⟨t⟩ = some x ∧
      piece_value_midgame_Piece ⟨CInt.add t (CInt.ofInt 8)⟩ = some x) ∧
    (∃ y : Value, piece_value_endgame_Piece ⟨t⟩ = some y ∧
      piece_value_endgame_Piece ⟨CInt.add t (CInt.ofInt 8)⟩ = some y) ∧
    piece_value_midgame_PieceType ⟨CInt.ofInt 1⟩ = some (Value.mk (CInt.ofInt 198)) ∧
    piece_value_midgame_Piece ⟨CInt.ofInt 1⟩ = some (Value.mk (CInt.ofInt 198)) ∧
    piece_value_midgame_Piece ⟨CInt.ofInt 9⟩ = some (Value.mk (CInt.ofInt 198)) := by
  obtain ⟨n, rfl⟩ := CInt.eq_ofInt_fin17 t (by omega) (by omega)
  have hn1 : 1 ≤ n.val := by
    have := h1; simp only [CInt.ofInt_val] at this
    by_contra hc
    have h0 : n.val = 0 := by omega
    rw [h0] at this
    exact absurd this (by decide)
  have hn5 : n.val ≤ 5 := by
    have := h5; simp only [CInt.ofInt_val] at this
    by_contra hc
    have hlt := n.isLt
    have e : wrap32 (n.val : Int) = (n.val : Int) := by apply wrap32_of_range <;> omega
    rw [e] at this
    omega
  clear h1 h5
  revert n
  decide

/-- An instance of C12 at the knight index `t = 2`. -/
theorem piece_value_colour_independent_witness :
    (1 : Int) ≤ (CInt.ofInt 2).val ∧ (CInt.ofInt 2).val ≤ 5 ∧
    ∃ x : Value, piece_value_midgame_Piece ⟨CInt.ofInt 2⟩ = some x ∧
      piece_value_midgame_Piece ⟨CInt.add (CInt.ofInt 2) (CInt.ofInt 8)⟩ = some x :=
  ⟨by decide, by decide,
    (piece_value_colour_independent (CInt.ofInt 2) (by decide) (by decide)).1⟩

/-! ## Value arithmetic -/

/-- C13: the `Value` operators do plain integer arithmetic without clamping.
Whenever the integer result fits in a 32-bit `int`, `v + i`, `v + w`, `v - i`,
`v - w`, `-v`, `v * i` and `i * v` have the integer values `int(v) + i`,
`int(v) + int(w)`, `int(v) - i`, `int(v) - int(w)`, `-int(v)`, `int(v) * i`
and `int(v) * i`, also outside `[-VALUE_NONE, VALUE_NONE]`: for example
`VALUE_INFINITE + 5` is `30006`. -/
theorem Value_arithmetic_no_clamp (v w : Value) (i : CInt) :
    (fits32 (v.toInt.val + i.val) →
      (operator_add_Value_int v i).toInt.val = v.toInt.val + i.val) ∧
    (fits32 (v.toInt.val + w.toInt.val) →
      (operator_add_Value_Value v w).toInt.val = v.toInt.val + w.toInt.val) ∧
    (fits32 (v.toInt.val - i.val) →
      (operator_sub_Value_int v i).toInt.val = v.toInt.val - i.val) ∧
    (fits32 (v.toInt.val - w.toInt.val) →
      (operator_sub_Value_Value v w).toInt.val = v.toInt.val - w.toInt.val) ∧
    (fits32 (-v.toInt.val) → (operator_neg_Value v).toInt.val = -v.toInt.val) ∧
    (fits32 (v.toInt.val * i.val) →
      (operator_mul_Value_int v i).toInt.val = v.toInt.val * i.val ∧
      (operator_mul_int_Value i v).toInt.val = v.toInt.val * i.val) ∧
    (operator_add_Value_int VALUE_INFINITE (CInt.ofInt 5)).toInt.val = 30006 ∧
    VALUE_NONE.toInt.val < (operator_add_Value_int VALUE_INFINITE (CInt.ofInt 5)).toInt.val := by
  refine ⟨?_, ?_, ?_, ?_, ?_, ?_, by decide, by decide⟩
  · intro h; exact wrap32_of_range h.1 h.2
  · intro h; exact wrap32_of_range h.1 h.2
  · intro h; exact wrap32_of_range h.1 h.2
  · intro h; exact wrap32_of_range h.1 h.2
  · intro h; exact wrap32_of_range h.1 h.2
  · intro h; exact ⟨wrap32_of_range h.1 h.2, wrap32_of_range h.1 h.2⟩

/-- An instance of C13: `VALUE_MATE * 3` is `90000`, beyond `VALUE_NONE`. -/
theorem Value_arithmetic_no_clamp_witness :
    fits32 (VALUE_MATE.toInt.val * (CInt.ofInt 3).val) ∧
    (operator_mul_Value_int VALUE_MATE (CInt.ofInt 3)).toInt.val
      = VALUE_MATE.toInt.val * (CInt.ofInt 3).val ∧
    (operator_mul_int_Value (CInt.ofInt 3) VALUE_MATE).toInt.val
      = VALUE_MATE.toInt.val * (CInt.ofInt 3).val :=
  have hfit : fits32 (VALUE_MATE.toInt.val * (CInt.ofInt 3).val) := ⟨by decide, by decide⟩
  ⟨hfit, (Value_arithmetic_no_clamp VALUE_MATE VALUE_DRAW (CInt.ofInt 3)).2.2.2.2.2.1 hfit⟩

/-! ## Centipawn conversion -/

/-- C14: the centipawn conversion is monotonic: `v1 ≤ v2` implies
`value_to_centipawns(v1) ≤ value_to_centipawns(v2)`. -/
theorem value_to_centipawns_monotone (v1 v2 : Value) (h : v1.toInt.val ≤ v2.toInt.val) :
    (value_to_centipawns v1).val ≤ (value_to_centipawns v2).val := by
  have hP : PawnValueMidgame.toInt.val = 198 := by decide
  have key : ∀ v : Value,
      (value_to_centipawns v).val = (2 * (v.toInt.val * 100) + 198) / (2 * 198) := by
    intro v
    have hlo := v.toInt.lo
    have hhi := v.toInt.hi
    show wrap32 (round_div (v.toInt.val * 100) PawnValueMidgame.toInt.val) = _
    rw [hP]
    unfold round_div
    apply wrap32_of_range <;> omega
  rw [key v1, key v2]
  omega

/-- An instance of C14: a pawn (`198`) and a knight (`817`) convert to `100` and
`413` centipawns. -/
theorem value_to_centipawns_monotone_witness :
    PawnValueMidgame.toInt.val ≤ KnightValueMidgame.toInt.val ∧
    (value_to_centipawns PawnValueMidgame).val ≤ (value_to_centipawns KnightValueMidgame).val ∧
    (value_to_centipawns PawnValueMidgame).val = 100 ∧
    (value_to_centipawns KnightValueMidgame).val = 413 :=
  ⟨by decide, value_to_centipawns_monotone PawnValueMidgame KnightValueMidgame (by decide),
    by decide, by decide⟩

/-! ## Shape of the piece-value tables -/

/-- C15, the claim as stated fails: the midgame table holds the value `0` in seven
of its slots, not in six. -/
theorem PieceValueMidgame_zero_slots_ne_six :
    ¬ (PieceValueMidgame.length = 17 ∧
      (PieceValueMidgame.filter (fun v => v.toInt.val == 0)).length = 6) := by
  decide

/-- C15, amended: each of `PieceValueMidgame` and `PieceValueEndgame` has exactly
17 slots, of which exactly 7 hold the value `0` (the indices 0, 6, 7, 8, 14,
15 and 16) and the other 10 hold a positive piece value. -/
theorem PieceValue_tables_shape :
    (PieceValueMidgame.length = 17 ∧ PieceValueEndgame.length = 17) ∧
    ((PieceValueMidgame.filter (fun v => v.toInt.val == 0)).length = 7 ∧
      (PieceValueEndgame.filter (fun v => v.toInt.val == 0)).length = 7) ∧
    (∀ k : Fin 17,
      ((subscript PieceValueMidgame (CInt.ofInt (k.val : Int))
          = some (Value.mk (CInt.ofInt 0)) ↔ k.val ∈ [0, 6, 7, 8, 14, 15, 16]) ∧
        (subscript PieceValueEndgame (CInt.ofInt (k.val : Int))
          = some (Value.mk (CInt.ofInt 0)) ↔ k.val ∈ [0, 6, 7, 8, 14, 15, 16]))) ∧
    ((PieceValueMidgame.filter (fun v => decide (0 < v.toInt.val))).length = 10 ∧
      (PieceValueEndgame.filter (fun v => decide (0 < v.toInt.val))).length = 10) := by
  refine ⟨by decide, by decide, ?_, by decide⟩
  decide

/-! ## Value division -/

theorem tdiv_trunc_nonneg {a b : Int} (ha : 0 ≤ a) (hb : 0 < b) :
    0 ≤ a.tdiv b ∧ a.tdiv b * b ≤ a ∧ a < (a.tdiv b + 1) * b := by
  rw [Int.tdiv_eq_ediv ha hb.le]
  exact ⟨Int.ediv_nonneg ha hb.le, Int.ediv_mul_le a hb.ne', Int.lt_ediv_add_one_mul_self a hb⟩

/-- The quotient `a.tdiv b` is `a / b` rounded toward zero: its multiple of `b`
lies between `0` and `a`, less than `|b|` away from `a`. -/
theorem tdiv_trunc (a b : Int) (hb : b ≠ 0) :
    |a.tdiv b * b| ≤ |a| ∧ |a - a.tdiv b * b| < |b| := by
  rcases le_total 0 a with ha | ha <;> rcases lt_or_gt_of_ne hb with hb' | hb'
  · obtain ⟨h0, h1, h2⟩ := tdiv_trunc_nonneg ha (neg_pos.mpr hb')
    rw [Int.tdiv_neg] at h0 h1 h2
    have hm : 0 ≤ (-(a.tdiv b)) * (-b) := mul_nonneg h0 (by linarith)
    rw [abs_of_nonneg ha, abs_of_neg hb', abs_le, abs_lt]
    refine ⟨⟨?_, ?_⟩, ?_, ?_⟩ <;> linarith
  · obtain ⟨h0, h1, h2⟩ := tdiv_trunc_nonneg ha hb'
    have hm : 0 ≤ a.tdiv b * b := mul_nonneg h0 hb'.le
    rw [abs_of_nonneg ha, abs_of_pos hb', abs_le, abs_lt]
    refine ⟨⟨?_, ?_⟩, ?_, ?_⟩ <;> linarith
  · obtain ⟨h0, h1, h2⟩ := tdiv_trunc_nonneg (neg_nonneg.mpr ha) (neg_pos.mpr hb')
    rw [Int.neg_tdiv_neg] at h0 h1 h2
    have hm : 0 ≤ a.tdiv b * (-b) := mul_nonneg h0 (by linarith)
    rw [abs_of_nonpos ha, abs_of_neg hb', abs_le, abs_lt]
    refine ⟨⟨?_, ?_⟩, ?_, ?_⟩ <;> linarith
  · obtain ⟨h0, h1, h2⟩ := tdiv_trunc_nonneg (neg_nonneg.mpr ha) hb'
    rw [Int.neg_tdiv] at h0 h1 h2
    have hm : 0 ≤ (-(a.tdiv b)) * b := mul_nonneg h0 hb'.le
    rw [abs_of_nonpos ha, abs_of_pos hb', abs_le, abs_lt]
    refine ⟨⟨?_, ?_⟩, ?_, ?_⟩ <;> linarith

/-- A truncated quotient of 32-bit integers is a 32-bit integer, except for
`-2^31 / -1`. -/
theorem tdiv_fits32 {a b : Int} (ha : fits32 a) (hb : b ≠ 0)
    (hov : ¬ (a = -2147483648 ∧ b = -1)) : fits32 (a.tdiv b) := by
  obtain ⟨h1, h2⟩ := tdiv_trunc a b hb
  have hb1 : 1 ≤ |b| := Int.one_le_abs hb
  have hq : |a.tdiv b| ≤ |a| := by
    have e : |a.tdiv b * b| = |a.tdiv b| * |b| := abs_mul _ _
    have hn : 0 ≤ |a.tdiv b| := abs_nonneg _
    nlinarith
  have haa : |a| ≤ 2147483648 := by
    rw [abs_le]; unfold fits32 at ha; constructor <;> omega
  have hqq := abs_le.mp (hq.trans haa)
  refine ⟨hqq.1, ?_⟩
  by_contra hc
  have hq2 : a.tdiv b = 2147483648 := by omega
  rw [hq2] at hq h1
  have ha2 : a = -2147483648 := by
    unfold fits32 at ha
    rcases abs_cases a with ⟨e, _⟩ | ⟨e, _⟩ <;> rw [e] at hq <;> norm_num at hq <;> omega
  rw [ha2] at h1
  norm_num at h1
  rw [abs_mul] at h1
  norm_num at h1
  have hb2 : |b| = 1 := by nlinarith
  rcases abs_cases b with ⟨e, _⟩ | ⟨e, _⟩
  · have hb3 : b = 1 := by omega
    rw [ha2, hb3] at hq2
    norm_num at hq2
  · exact hov ⟨ha2, by omega⟩

/-- C16, the claim as stated fails: for `int(v) = -2^31` and `i = 2` the quotient
`(-v) / i` is `-2^30`, while `-(v / i)` is `2^30`. -/
theorem operator_div_neg_Value_fails_at_min :
    operator_div_Value_int (operator_neg_Value (Value.mk (CInt.ofInt (-2147483648))))
        (CInt.ofInt 2)
      ≠ (operator_div_Value_int (Value.mk (CInt.ofInt (-2147483648))) (CInt.ofInt 2)).map
          operator_neg_Value := by
  decide

/-- C16, amended: for every `Value v` and every `int i ≠ 0`, excluding
`int(v) = -2^31` with `i = -1`, `v / i` returns a value `q` that is the
quotient of `int(v)` by `i` rounded toward zero (`|q * i| ≤ |int(v)|` and
`|int(v) - q * i| < |i|`), and `v /= i` leaves `v` equal to `q`; if moreover
`int(v) ≠ -2^31`, then `(-v) / i == -(v / i)`. -/
theorem operator_div_Value_int_truncates (v : Value) (i : CInt) (hi : i.val ≠ 0)
    (hov : ¬ (v.toInt.val = -2147483648 ∧ i.val = -1)) :
    ∃ q : Value, operator_div_Value_int v i = some q ∧
      (|q.toInt.val * i.val| ≤ |v.toInt.val| ∧
        |v.toInt.val - q.toInt.val * i.val| < |i.val|) ∧
      operator_div_assign_Value_int v i = some q ∧
      (v.toInt.val ≠ -2147483648 →
        operator_div_Value_int (operator_neg_Value v) i = some (operator_neg_Value q)) := by
  have hv : fits32 v.toInt.val := ⟨v.toInt.lo, v.toInt.hi⟩
  have hq : fits32 (v.toInt.val.tdiv i.val) := tdiv_fits32 hv hi hov
  have hqv : (CInt.ofInt (v.toInt.val.tdiv i.val)).val = v.toInt.val.tdiv i.val :=
    wrap32_of_range hq.1 hq.2
  have hdiv : CInt.div v.toInt i = some (CInt.ofInt (v.toInt.val.tdiv i.val)) := by
    unfold CInt.div
    rw [if_neg hi, if_neg hov]
  refine ⟨Value.mk (CInt.ofInt (v.toInt.val.tdiv i.val)), ?_, ?_, ?_, ?_⟩
  · simp [operator_div_Value_int, hdiv]
  · rw [hqv]
    exact tdiv_trunc _ _ hi
  · simp [operator_div_assign_Value_int, hdiv]
  · intro hmin
    have hneg : (operator_neg_Value v).toInt.val = -v.toInt.val := by
      show wrap32 (-v.toInt.val) = _
      apply wrap32_of_range <;> [skip; skip] <;> unfold fits32 at hv <;> omega
    have hov2 : ¬ ((operator_neg_Value v).toInt.val = -2147483648 ∧ i.val = -1) := by
      rw [hneg]; unfold fits32 at hv; omega
    have hdiv2 : CInt.div (operator_neg_Value v).toInt i
        = some (CInt.ofInt ((operator_neg_Value v).toInt.val.tdiv i.val)) := by
      unfold CInt.div
      rw [if_neg hi, if_neg hov2]
    simp only [operator_div_Value_int, hdiv2, Option.map_some']
    congr 2
    apply CInt.eq_of_val_eq
    show wrap32 _ = wrap32 _
    rw [hneg, Int.neg_tdiv, hqv]

/-- An instance of C16 (amended): `Value(-7) / 2` is `Value(-3)`. -/
theorem operator_div_Value_int_truncates_witness :
    ∃ q : Value, operator_div_Value_int (Value.mk (CInt.ofInt (-7))) (CInt.ofInt 2) = some q ∧
      (|q.toInt.val * (CInt.ofInt 2).val| ≤ |(Value.mk (CInt.ofInt (-7))).toInt.val| ∧
        |(Value.mk (CInt.ofInt (-7))).toInt.val - q.toInt.val * (CInt.ofInt 2).val|
          < |(CInt.ofInt 2).val|) ∧
      operator_div_assign_Value_int (Value.mk (CInt.ofInt (-7))) (CInt.ofInt 2) = some q ∧
      ((Value.mk (CInt.ofInt (-7))).toInt.val ≠ -2147483648 →
        operator_div_Value_int (operator_neg_Value (Value.mk (CInt.ofInt (-7)))) (CInt.ofInt 2)
          = some (operator_neg_Value q)) :=
  operator_div_Value_int_truncates (Value.mk (CInt.ofInt (-7))) (CInt.ofInt 2)
    (by decide) (by decide)

/-! ## Score lanes -/

theorem wrap32_mul_add (i a b : Int) :
    wrap32 (i * wrap32 (a + b)) = wrap32 (wrap32 (i * a) + wrap32 (i * b)) := by
  apply wrap32_congr
  have h1 : Int.ModEq 4294967296 (i * wrap32 (a + b)) (i * (a + b)) :=
    (wrap32_modEq (a + b)).mul_left i
  have h2 : Int.ModEq 4294967296 (wrap32 (i * a) + wrap32 (i * b)) (i * a + i * b) :=
    (wrap32_modEq (i * a)).add (wrap32_modEq (i * b))
  rw [mul_add] at h1
  exact h1.trans h2.symm

/-- C17: `s += t` and `s -= t` act on each lane separately.  The midgame lane
becomes `s.mg + t.mg` (resp. `s.mg - t.mg`) and the endgame lane
`s.eg + t.eg` (resp. `s.eg - t.eg`), each reduced to 32 bits on its own; the
new endgame lane is the same whatever the two midgame lanes are, and the new
midgame lane is the same whatever the two endgame lanes are. -/
theorem Score_add_sub_assign_lanes (s t : Score) (a a' b b' c c' d d' : CInt) :
    ((Score.operator_add_assign s t).mg.toInt.val = wrap32 (s.mg.toInt.val + t.mg.toInt.val) ∧
      (Score.operator_add_assign s t).eg.toInt.val
        = wrap32 (s.eg.toInt.val + t.eg.toInt.val)) ∧
    ((Score.operator_sub_assign s t).mg.toInt.val = wrap32 (s.mg.toInt.val - t.mg.toInt.val) ∧
      (Score.operator_sub_assign s t).eg.toInt.val
        = wrap32 (s.eg.toInt.val - t.eg.toInt.val)) ∧
    ((Score.operator_add_assign (Score.ofInts a b) (Score.ofInts c d)).eg
        = (Score.operator_add_assign (Score.ofInts a' b) (Score.ofInts c' d)).eg ∧
      (Score.operator_add_assign (Score.ofInts a b) (Score.ofInts c d)).mg
        = (Score.operator_add_assign (Score.ofInts a b') (Score.ofInts c d')).mg) ∧
    ((Score.operator_sub_assign (Score.ofInts a b) (Score.ofInts c d)).eg
        = (Score.operator_sub_assign (Score.ofInts a' b) (Score.ofInts c' d)).eg ∧
      (Score.operator_sub_assign (Score.ofInts a b) (Score.ofInts c d)).mg
        = (Score.operator_sub_assign (Score.ofInts a b') (Score.ofInts c d')).mg) := by
  refine ⟨⟨rfl, rfl⟩, ⟨rfl, rfl⟩, ⟨rfl, rfl⟩, ⟨rfl, rfl⟩⟩

/-- C19: `i * (s += t)` has the same midgame and endgame lanes as
`(i * s) += (i * t)`, each lane in 32-bit wrap-around arithmetic. -/
theorem operator_mul_int_Score_distrib (i : CInt) (s t : Score) :
    (operator_mul_int_Score i (Score.operator_add_assign s t)).mg
      = (Score.operator_add_assign (operator_mul_int_Score i s)
          (operator_mul_int_Score i t)).mg ∧
    (operator_mul_int_Score i (Score.operator_add_assign s t)).eg
      = (Score.operator_add_assign (operator_mul_int_Score i s)
          (operator_mul_int_Score i t)).eg := by
  constructor <;>
  · simp only [operator_mul_int_Score, Score.operator_add_assign, Score.ofInts, Score.mg,
      Score.eg, int32_t_id, CInt.mul, CInt.add, CInt.ofInt_val]
    congr 1
    apply CInt.eq_of_val_eq
    exact wrap32_mul_add _ _ _

/-! ## Ordering of mate values -/

/-- C18: mate values are strictly ordered by distance.  For `p1 < p2` with the
results within `int` range, `value_mate_in(p1) > value_mate_in(p2)` and
`value_mated_in(p1) < value_mated_in(p2)`; for every `p ≥ 0`,
`-VALUE_INFINITE < value_mated_in(p)` and
`value_mate_in(p) < VALUE_INFINITE < VALUE_NONE`. -/
theorem value_mate_strictly_ordered (p1 p2 p : CInt) :
    (p1.val < p2.val → fits32 (30000 - p1.val) → fits32 (30000 - p2.val) →
      (value_mate_in p2).toInt.val < (value_mate_in p1).toInt.val) ∧
    (p1.val < p2.val → fits32 (-30000 + p1.val) → fits32 (-30000 + p2.val) →
      (value_mated_in p1).toInt.val < (value_mated_in p2).toInt.val) ∧
    (0 ≤ p.val →
      (operator_neg_Value VALUE_INFINITE).toInt.val < (value_mated_in p).toInt.val ∧
      (value_mate_in p).toInt.val < VALUE_INFINITE.toInt.val ∧
      VALUE_INFINITE.toInt.val < VALUE_NONE.toInt.val) := by
  have m : ∀ q : CInt, (value_mate_in q).toInt.val = wrap32 (30000 - q.val) := fun _ => rfl
  have d : ∀ q : CInt, (value_mated_in q).toInt.val = wrap32 (-30000 + q.val) := fun _ => rfl
  refine ⟨?_, ?_, ?_⟩
  · intro h f1 f2
    rw [m, m, wrap32_of_range f1.1 f1.2, wrap32_of_range f2.1 f2.2]
    omega
  · intro h f1 f2
    rw [d, d, wrap32_of_range f1.1 f1.2, wrap32_of_range f2.1 f2.2]
    omega
  · intro h
    have hhi := p.hi
    have e1 : (operator_neg_Value VALUE_INFINITE).toInt.val = -30001 := by decide
    have e2 : VALUE_INFINITE.toInt.val = 30001 := by decide
    have e3 : VALUE_NONE.toInt.val = 30002 := by decide
    have e4 : wrap32 (30000 - p.val) = 30000 - p.val := by apply wrap32_of_range <;> omega
    have e5 : wrap32 (-30000 + p.val) = -30000 + p.val := by apply wrap32_of_range <;> omega
    rw [m, d, e1, e2, e3, e4, e5]
    omega

/-- An instance of C18: mate in 3 against mate in 5, and ply 3 against the
sentinels. -/
theorem value_mate_strictly_ordered_witness :
    (value_mate_in (CInt.ofInt 5)).toInt.val < (value_mate_in (CInt.ofInt 3)).toInt.val ∧
    (value_mated_in (CInt.ofInt 3)).toInt.val < (value_mated_in (CInt.ofInt 5)).toInt.val ∧
    (operator_neg_Value VALUE_INFINITE).toInt.val < (value_mated_in (CInt.ofInt 3)).toInt.val ∧
    (value_mate_in (CInt.ofInt 3)).toInt.val < VALUE_INFINITE.toInt.val :=
  have h := value_mate_strictly_ordered (CInt.ofInt 3) (CInt.ofInt 5) (CInt.ofInt 3)
  have h3 := h.2.2 (by decide)
  ⟨h.1 (by decide) ⟨by decide, by decide⟩ ⟨by decide, by decide⟩,
    h.2.1 (by decide) ⟨by decide, by decide⟩ ⟨by decide, by decide⟩, h3.1, h3.2.1⟩

/-! ## Totality of the piece-value lookup -/

/-- C20: for every index `k` with `0 ≤ k ≤ 16` the four lookups read inside the
17-entry tables and return a value, the `PieceType` overload and the `Piece`
overload return the same value, and the endgame value at `k` is at least the
midgame value at `k`. -/
theorem piece_value_lookup_total (k : CInt) (h0 : 0 ≤ k.val) (h16 : k.val ≤ 16) :
    ∃ m e : Value,
      piece_value_midgame_PieceType ⟨k⟩ = some m ∧ piece_value_midgame_Piece ⟨k⟩ = some m ∧
      piece_value_endgame_PieceType ⟨k⟩ = some e ∧ piece_value_endgame_Piece ⟨k⟩ = some e ∧
      m.toInt.val ≤ e.toInt.val := by
  obtain ⟨n, rfl⟩ := CInt.eq_ofInt_fin17 k h0 h16
  clear h0 h16
  have key : ∀ j : Fin 17,
      (match subscript PieceValueMidgame (CInt.ofInt (j.val : Int)),
          subscript PieceValueEndgame (CInt.ofInt (j.val : Int)) with
        | some m, some e => decide (m.toInt.val ≤ e.toInt.val)
        | _, _ => false) = true := by
    decide
  have h := key n
  show ∃ m e : Value,
    subscript PieceValueMidgame (CInt.ofInt (n.val : Int)) = some m ∧
    subscript PieceValueMidgame (CInt.ofInt (n.val : Int)) = some m ∧
    subscript PieceValueEndgame (CInt.ofInt (n.val : Int)) = some e ∧
    subscript PieceValueEndgame (CInt.ofInt (n.val : Int)) = some e ∧
    m.toInt.val ≤ e.toInt.val
  generalize subscript PieceValueMidgame (CInt.ofInt (n.val : Int)) = om at h ⊢
  generalize subscript PieceValueEndgame (CInt.ofInt (n.val : Int)) = oe at h ⊢
  cases om with
  | none => simp at h
  | some m =>
    cases oe with
    | none => simp at h
    | some e => exact ⟨m, e, rfl, rfl, rfl, rfl, by simpa using h⟩

/-- An instance of C20 at the slot `k = 16`, the last of the table. -/
theorem piece_value_lookup_total_witness :
    ∃ m e : Value,
      piece_value_midgame_PieceType ⟨CInt.ofInt 16⟩ = some m ∧
      piece_value_midgame_Piece ⟨CInt.ofInt 16⟩ = some m ∧
      piece_value_endgame_PieceType ⟨CInt.ofInt 16⟩ = some e ∧
      piece_value_endgame_Piece ⟨CInt.ofInt 16⟩ = some e ∧
      m.toInt.val ≤ e.toInt.val :=
  piece_value_lookup_total (CInt.ofInt 16) (by decide) (by decide)

end Stockfish
